import Mathlib

set_option maxHeartbeats 1000000

/-! Shallow embedding of the RediDNS resolution-and-cache-consistency engine.
    Translated from: server/dns_handler.go, server/server.go, api/handlers.go,
    the MariaDB and Redis client wrappers, and the models package.
    Machine integers are modelled as Nat/Int with explicit reduction mod 2^32
    where the source casts to uint32; fallible calls return Except. -/

/-- models.SOARecord: the structured payload of a start-of-authority record.
    All numeric fields are uint32 in the source; values written into them are
    reduced mod 2^32 at the write site. -/
structure SOARecordData where
  mname : String
  rname : String
  serial : Nat
  refresh : Nat
  retry : Nat
  expire : Nat
  minimum : Nat
deriving DecidableEq, Repr

/-- models.SRVRecord: the structured payload of a service record. -/
structure SRVData where
  priority : Nat
  weight : Nat
  port : Nat
  target : String
deriving DecidableEq, Repr

/-- models.CAARecord: the structured payload of a
    certification-authority-authorization record. -/
structure CAAData where
  flag : Nat
  tag : String
  value : String
deriving DecidableEq, Repr

/-- A record's content string. In the source this is one opaque Go string;
    structured payloads (SOA, SRV, CAA) are stored as their JSON encoding
    inside it. The embedding models the json.Marshal/json.Unmarshal pair by
    constructors: `raw s` is a plain string, the other constructors hold a
    successfully encoded structured payload, and decoding a content as a given
    structured type succeeds exactly when it was encoded as that type. -/
inductive Content
  | raw (s : String)
  | soaData (d : SOARecordData)
  | srvData (d : SRVData)
  | caaData (d : CAAData)
deriving DecidableEq, Repr

/-- The underlying Go string of a content value. Structured payloads render as
    a non-empty JSON encoding; its exact text is never inspected by the
    modelled logic, only compared against the empty string. -/
def Content.str : Content → String
  | .raw s => s
  | .soaData _ => "soa-json"
  | .srvData _ => "srv-json"
  | .caaData _ => "caa-json"

/-- models.Record. The Go field Type is named `rtype` here (type is a Lean
    keyword) and holds the record-type string (TypeA = "A", ...); the
    created_at/updated_at timestamps are omitted, the modelled logic never
    reads them. -/
structure Record where
  id : Int
  zone : String
  name : String
  rtype : String
  content : Content
  ttl : Int
  priority : Int
deriving DecidableEq, Repr

/-- Record-set cache key, built as fmt.Sprintf of "dns:records:" with zone,
    name and type (RedisClient.GetRecordsByNameAndType / SetRecords /
    DeleteRecordsByNameAndType, and the API handlers). -/
def recordsKey (zone name rtype : String) : String :=
  "dns:records:" ++ zone ++ ":" ++ name ++ ":" ++ rtype

/-- Legacy single-record cache key, fmt.Sprintf of "dns:record:" with zone,
    name and type (RedisClient.GetRecord / SetRecord / DeleteRecord, and the
    API handlers). -/
def recordKey (zone name rtype : String) : String :=
  "dns:record:" ++ zone ++ ":" ++ name ++ ":" ++ rtype

/-- The pub/sub channel used by RedisClient.PublishRecordUpdate. -/
def publishChannel : String := "dns:record:update"

/-- The pub/sub channel used by RedisClient.SubscribeToRecordUpdates. -/
def subscribeChannel : String := "dns:record:update"

/-- A value stored in the cache under some key: a JSON array of records, a
    JSON single record, or bytes that unmarshal as neither. -/
inductive CacheVal
  | recs (rs : List Record)
  | single (r : Record)
  | junk
deriving DecidableEq, Repr

/-- Outcome of a raw redis GET on one key: a stored value, a missing key
    (redis.Nil), or a connectivity failure. -/
inductive GetOutcome
  | val (v : CacheVal)
  | missing
  | failure
deriving DecidableEq, Repr

/-- The cache contents as observed by the read path: each key's GET outcome. -/
abbrev Cache := String → GetOutcome

/-- RedisClient.GetRecordsByNameAndType: on any GET error (missing key or
    connectivity failure) the source returns (nil, nil), i.e. an empty result
    with no error; a json.Unmarshal failure is returned as an error. -/
def redisGetRecordsByNameAndType (c : Cache) (zone name rtype : String) :
    Except Unit (List Record) :=
  match c (recordsKey zone name rtype) with
  | .failure => .ok []
  | .missing => .ok []
  | .val (.recs rs) => .ok rs
  | .val _ => .error ()

/-- RedisClient.GetRecord: a missing key (redis.Nil) yields (nil, nil); any
    other GET error is returned as an error, as is an unmarshal failure. -/
def redisGetRecord (c : Cache) (zone name rtype : String) :
    Except Unit (Option Record) :=
  match c (recordKey zone name rtype) with
  | .missing => .ok none
  | .failure => .error ()
  | .val (.single r) => .ok (some r)
  | .val _ => .error ()

/-- RedisClient.SetRecords: the cache entry written for a non-empty record
    list, as (key, stored value, expiration in seconds or none for no
    expiration). The key is built from the first record's fields. The `ttl`
    argument is received but never used by the source: the expiration is the
    configured Redis cache TTL (cfg.Redis.Cache.TTL), or no expiration when
    that configured value is 0. An empty list is a no-op (none). -/
def SetRecords (cfgTTL : Nat) (records : List Record) (ttl : Int) :
    Option (String × List Record × Option Nat) :=
  match records with
  | [] => none
  | r0 :: _ =>
    some (recordsKey r0.zone r0.name r0.rtype, records,
      if cfgTTL = 0 then none else some cfgTTL)

/-- RedisClient.SetRecord: the single-record cache entry written, as (key,
    stored record, expiration). Like SetRecords, the `ttl` argument is ignored
    and the configured cache TTL decides the expiration. -/
def SetRecord (cfgTTL : Nat) (r : Record) (ttl : Int) :
    String × Record × Option Nat :=
  (recordKey r.zone r.name r.rtype, r,
    if cfgTTL = 0 then none else some cfgTTL)

/-- Errors of answer synthesis (addAnswerFromRecord): a structured payload
    that fails to decode, or a record type outside the supported enumeration. -/
inductive SynthErr
  | malformedRecordContent
  | unsupportedRecordType
deriving DecidableEq, Repr

/-- True when the string already ends with the label separator, mirroring the
    dns.IsFqdn check used by dns.Fqdn. -/
def endsWithDot (s : String) : Bool :=
  match s.data.getLast? with
  | some c => c = '.'
  | none => false

/-- dns.Fqdn: qualify a hostname to fully-qualified form by appending a
    trailing dot when absent. -/
def fqdn (s : String) : String :=
  if endsWithDot s then s else s ++ "."

/-- strings.TrimSuffix(name, "."): drop one trailing dot when present. -/
def trimDot (s : String) : String :=
  if endsWithDot s then String.mk s.data.dropLast else s

/-- strings.Split(s, "."): split into dot-separated labels, accumulating the
    current label character by character. -/
def splitDotGo : List Char → String → List String
  | [], acc => [acc]
  | c :: cs, acc => if c = '.' then acc :: splitDotGo cs "" else splitDotGo cs (acc.push c)

/-- strings.Split(s, ".") applied to a whole string. -/
def splitDot (s : String) : List String :=
  splitDotGo s.data ""

/-- strings.Join(parts, "."): rejoin labels with dots. -/
def joinDot : List String → String
  | [] => ""
  | [s] => s
  | s :: rest => s ++ "." ++ joinDot rest

/-- One wire answer produced by addAnswerFromRecord, per supported record
    type. Address contents are kept as the content string (net.ParseIP is a
    wire-layer concern per the spec). -/
inductive Answer
  | aRR (name : String) (ttl : Int) (addr : String)
  | aaaaRR (name : String) (ttl : Int) (addr : String)
  | cnameRR (name : String) (ttl : Int) (target : String)
  | mxRR (name : String) (ttl : Int) (preference : Int) (mx : String)
  | nsRR (name : String) (ttl : Int) (ns : String)
  | ptrRR (name : String) (ttl : Int) (ptr : String)
  | txtRR (name : String) (ttl : Int) (txt : String)
  | soaRR (name : String) (ttl : Int) (d : SOARecordData)
  | srvRR (name : String) (ttl : Int) (d : SRVData)
  | caaRR (name : String) (ttl : Int) (d : CAAData)
deriving DecidableEq, Repr

/-- DNSHandler.addAnswerFromRecord: dispatch on the record type string;
    structured types decode their content payload and fail with a malformed-
    content error when decoding fails; an unrecognized type string fails with
    an unsupported-type error. -/
def addAnswerFromRecord (r : Record) (qname : String) : Except SynthErr Answer :=
  if r.rtype = "A" then .ok (.aRR qname r.ttl r.content.str)
  else if r.rtype = "AAAA" then .ok (.aaaaRR qname r.ttl r.content.str)
  else if r.rtype = "CNAME" then .ok (.cnameRR qname r.ttl (fqdn r.content.str))
  else if r.rtype = "MX" then .ok (.mxRR qname r.ttl r.priority (fqdn r.content.str))
  else if r.rtype = "NS" then .ok (.nsRR qname r.ttl (fqdn r.content.str))
  else if r.rtype = "PTR" then .ok (.ptrRR qname r.ttl (fqdn r.content.str))
  else if r.rtype = "TXT" then .ok (.txtRR qname r.ttl r.content.str)
  else if r.rtype = "SOA" then
    match r.content with
    | .soaData d => .ok (.soaRR qname r.ttl d)
    | _ => .error .malformedRecordContent
  else if r.rtype = "SRV" then
    match r.content with
    | .srvData d => .ok (.srvRR qname r.ttl d)
    | _ => .error .malformedRecordContent
  else if r.rtype = "CAA" then
    match r.content with
    | .caaData d => .ok (.caaRR qname r.ttl d)
    | _ => .error .malformedRecordContent
  else .error .unsupportedRecordType

/-- The answers accumulated by the handler loops over a record set: each
    record is synthesized independently, a per-record failure is logged and
    the loop continues, so exactly the successes are kept, in order. -/
def synthAll (rs : List Record) (qname : String) : List Answer :=
  rs.filterMap (fun r => (addAnswerFromRecord r qname).toOption)

/-- The external collaborators of the DNS query path: the cache contents and
    the three store reads used by handleQuery/findZone, each of which can fail
    (connectivity) independently per argument. -/
structure DnsEnv where
  cache : Cache
  dbGetZone : String → Except Unit (Option String)
  dbGetRecords : String → String → String → Except Unit (List Record)
  dbGetRecord : String → String → String → Except Unit (Option Record)

/-- Observable outcome of one handleQuery run: the answers appended, the
    record set the answers were synthesized from, whether the run counted a
    cache hit, which store reads ran, and the cache writes attempted
    (SetRecords calls as (records, ttl argument), SetRecord calls as
    (record, ttl argument)). -/
structure ResolveOut where
  answers : List Answer
  records : List Record
  hit : Bool
  dbSetRead : Bool
  dbSingleRead : Bool
  setWrites : List (List Record × Int)
  singleWrites : List (Record × Int)
deriving DecidableEq, Repr

/-- handleQuery, final fallback (dns_handler.go lines 142-159): single-record
    store lookup; a found record is cached under the single-record key with
    the record's TTL passed as the ttl argument, then synthesized (a synthesis
    failure propagates out of handleQuery on this path). -/
def resolveStep5 (env : DnsEnv) (zone name rtype qname : String) :
    Except Unit ResolveOut :=
  match env.dbGetRecord zone name rtype with
  | .error _ => .error ()
  | .ok none => .ok ⟨[], [], false, true, true, [], []⟩
  | .ok (some r) =>
    match addAnswerFromRecord r qname with
    | .error _ => .error ()
    | .ok a => .ok ⟨[a], [r], false, true, true, [], [(r, r.ttl)]⟩

/-- handleQuery, cache-miss store path (dns_handler.go lines 117-159): query
    the store for all matching records; a non-empty result is cached under the
    record-set key with the first record's TTL passed as the ttl argument and
    every record is synthesized independently; an empty result falls back to
    the single-record lookup. -/
def resolveMiss (env : DnsEnv) (zone name rtype qname : String) :
    Except Unit ResolveOut :=
  match env.dbGetRecords zone name rtype with
  | .error _ => .error ()
  | .ok [] => resolveStep5 env zone name rtype qname
  | .ok (r0 :: rest) =>
    .ok ⟨synthAll (r0 :: rest) qname, r0 :: rest, false, true, false,
      [(r0 :: rest, r0.ttl)], []⟩

/-- handleQuery, legacy single-record cache probe (dns_handler.go lines
    109-115): a hit requires a nil error and a non-nil record; a synthesis
    failure on the hit propagates; everything else falls through to the store. -/
def resolveStep2 (env : DnsEnv) (zone name rtype qname : String) :
    Except Unit ResolveOut :=
  match redisGetRecord env.cache zone name rtype with
  | .ok (some r) =>
    match addAnswerFromRecord r qname with
    | .error _ => .error ()
    | .ok a => .ok ⟨[a], [r], true, false, false, [], []⟩
  | .ok none => resolveMiss env zone name rtype qname
  | .error _ => resolveMiss env zone name rtype qname

/-- handleQuery, record-set cache probe onward (dns_handler.go lines 92-159):
    a nil error with a non-empty list is a cache hit answered from the cache;
    otherwise fall through to the legacy single-record probe. -/
def resolveRecords (env : DnsEnv) (zone name rtype qname : String) :
    Except Unit ResolveOut :=
  match redisGetRecordsByNameAndType env.cache zone name rtype with
  | .ok (r0 :: rest) =>
    .ok ⟨synthAll (r0 :: rest) qname, r0 :: rest, true, false, false, [], []⟩
  | .ok [] => resolveStep2 env zone name rtype qname
  | .error _ => resolveStep2 env zone name rtype qname

/-- DNSHandler.findZone, the probing loop: for each i the candidate is the
    join of parts[i:]; a store error aborts, a found zone is returned, and an
    exhausted candidate list returns the empty-string sentinel. -/
def findZoneGo (g : String → Except Unit (Option String)) :
    List String → Except Unit String
  | [] => .ok ""
  | p :: rest =>
    match g (joinDot (p :: rest)) with
    | .error _ => .error ()
    | .ok (some z) => .ok z
    | .ok none => findZoneGo g rest

/-- DNSHandler.findZone: split the name on dots and probe from the full name
    down to the last label. -/
def findZone (g : String → Except Unit (Option String)) (name : String) :
    Except Unit String :=
  findZoneGo g (splitDot name)

/-- DNSHandler.handleQuery: trim the trailing dot, resolve the zone (an error
    propagates, the empty sentinel returns silently with no answers), then run
    the cache-aside record resolution. -/
def handleQuery (env : DnsEnv) (qname rtype : String) : Except Unit ResolveOut :=
  let name := trimDot qname
  match findZone env.dbGetZone name with
  | .error _ => .error ()
  | .ok zone =>
    if zone = "" then .ok ⟨[], [], false, false, false, [], []⟩
    else resolveRecords env zone name rtype qname

/-- DNS response codes relevant to ServeDNS. -/
inductive Rcode
  | noError
  | nameError
  | serverFailure
deriving DecidableEq, Repr

/-- DNSHandler.ServeDNS for a single-question message: a handler error sets
    the server-failure rcode and increments the server-failure counter; then,
    unconditionally, an empty answer section overwrites the rcode with
    name-error. Returns (final rcode, answers, whether the server-failure
    counter was incremented). -/
def serveDNS (env : DnsEnv) (qname rtype : String) : Rcode × List Answer × Bool :=
  match handleQuery env qname rtype with
  | .error _ =>
    (if ([] : List Answer).length = 0 then Rcode.nameError else Rcode.serverFailure,
      [], true)
  | .ok out =>
    (if out.answers.length = 0 then Rcode.nameError else Rcode.noError,
      out.answers, false)

/-- The MariaDB record store state: the zones table (names, unique), the
    records table in insertion order, and the next AUTO_INCREMENT id. -/
structure Store where
  zones : List String
  records : List Record
  nextId : Int
deriving DecidableEq, Repr

/-- MariaDBClient.GetZone: SELECT by name, returning the stored name or the
    not-found sentinel. -/
def Store.getZone (st : Store) (name : String) : Option String :=
  if st.zones.contains name then some name else none

/-- MariaDBClient.GetRecordsByNameAndType: SELECT all rows WHERE zone, name
    and type match, in table order. -/
def Store.getRecordsByNameAndType (st : Store) (zone name rtype : String) :
    List Record :=
  st.records.filter (fun r => r.zone == zone && r.name == name && r.rtype == rtype)

/-- MariaDBClient.GetRecord: QueryRow variant, the first matching row or the
    not-found sentinel. -/
def Store.getRecord (st : Store) (zone name rtype : String) : Option Record :=
  (st.getRecordsByNameAndType zone name rtype).head?

/-- MariaDBClient.GetRecordByID. -/
def Store.getRecordByID (st : Store) (id : Int) : Option Record :=
  st.records.find? (fun r => r.id == id)

/-- MariaDBClient.CreateRecord: INSERT, then set the record's id from
    LastInsertId. Returns the new store and the inserted record. -/
def Store.createRecord (st : Store) (r : Record) : Store × Record :=
  let r' := { r with id := st.nextId }
  ({ st with records := st.records ++ [r'], nextId := st.nextId + 1 }, r')

/-- MariaDBClient.UpdateRecord: UPDATE content, ttl and priority WHERE id
    matches (zone, name and type are not touched by the SQL statement). -/
def Store.updateRecord (st : Store) (r : Record) : Store :=
  { st with records := st.records.map (fun x =>
      if x.id == r.id then { x with content := r.content, ttl := r.ttl, priority := r.priority }
      else x) }

/-- MariaDBClient.DeleteRecord: DELETE WHERE id matches. -/
def Store.deleteRecord (st : Store) (id : Int) : Store :=
  { st with records := st.records.filter (fun r => !(r.id == id)) }

/-- The configured SOA defaults (config.DNS.SOA). -/
structure SOAConfig where
  primaryNameserver : String
  mailAddress : String
  refresh : Nat
  retry : Nat
  expire : Nat
  minimum : Nat
deriving DecidableEq, Repr

/-- APIServer.createDefaultSOARecord: build the default SOA payload from the
    configured defaults with serial = uint32(time.Now().Unix()), and insert it
    as a record at the zone apex with TTL 86400. -/
def createDefaultSOARecord (cfg : SOAConfig) (now : Nat) (zoneName : String)
    (st : Store) : Store :=
  let d : SOARecordData :=
    ⟨cfg.primaryNameserver, cfg.mailAddress, now % 2 ^ 32,
      cfg.refresh, cfg.retry, cfg.expire, cfg.minimum⟩
  (st.createRecord ⟨0, zoneName, zoneName, "SOA", .soaData d, 86400, 0⟩).1

/-- APIServer.updateZoneSOASerial: fetch the zone's SOA records at the apex;
    with none, materialize the default SOA (no cache invalidation on that
    branch); otherwise decode the first one's payload (a decode failure is an
    error), overwrite the serial with uint32(time.Now().Unix()), re-encode,
    persist via UpdateRecord, and delete both cache key shapes for the SOA
    record. Returns the new store and the cache keys deleted, in order. -/
def updateZoneSOASerial (cfg : SOAConfig) (now : Nat) (zoneName : String)
    (st : Store) : Except Unit (Store × List String) :=
  match st.getRecordsByNameAndType zoneName zoneName "SOA" with
  | [] => .ok (createDefaultSOARecord cfg now zoneName st, [])
  | soaRecord :: _ =>
    match soaRecord.content with
    | .soaData d =>
      let r' := { soaRecord with content := Content.soaData { d with serial := now % 2 ^ 32 } }
      .ok (st.updateRecord r',
        [recordKey soaRecord.zone soaRecord.name soaRecord.rtype,
         recordsKey soaRecord.zone soaRecord.name soaRecord.rtype])
    | _ => .error ()

/-- The TTL whitelist shared by createRecordHandler and updateRecordHandler. -/
def validTTLs : List Int :=
  [5, 10, 30, 60, 90, 120, 180, 300, 600, 900, 1800, 3600, 7200, 18000,
   43200, 86400, 172800, 432000, 1296000, 2592000]

/-- The decoded body of a create-record request. -/
structure CreateReq where
  name : String
  rtype : String
  content : Content
  ttl : Int
  priority : Int
deriving DecidableEq, Repr

/-- The decoded body of an update-record request (the source also decodes a
    name field but never reads it). -/
structure UpdateReq where
  content : Content
  ttl : Int
  priority : Int
deriving DecidableEq, Repr

/-- Observable outcome of one administrative mutation handler run: the HTTP
    status, the resulting store, the cache keys deleted in-process before
    responding (in order), the records published to the invalidation channel,
    and whether updateZoneSOASerial was invoked. -/
structure MutationResult where
  status : Nat
  store : Store
  cacheDels : List String
  published : List Record
  soaBumped : Bool
deriving DecidableEq, Repr

/-- APIServer.createRecordHandler: zone existence check, name/type/content
    validation, at-sign and bare-label name qualification, TTL defaulting
    (non-positive becomes 120) and whitelist validation, record insertion,
    SOA serial bump for non-SOA types (its failure only logged), and the
    publish of the created record. The handler performs no in-process cache
    deletion of its own: the only keys deleted are those removed inside
    updateZoneSOASerial. -/
def createRecordHandler (cfg : SOAConfig) (now : Nat) (zoneName : String)
    (req : CreateReq) (st : Store) : MutationResult :=
  match st.getZone zoneName with
  | none => ⟨404, st, [], [], false⟩
  | some _ =>
    if req.name = "" then ⟨400, st, [], [], false⟩
    else
      let name1 :=
        if req.name = "@" then zoneName
        else if !(req.name.data.contains '.') then req.name ++ "." ++ zoneName
        else req.name
      if req.rtype = "" then ⟨400, st, [], [], false⟩
      else if req.content.str = "" then ⟨400, st, [], [], false⟩
      else if req.ttl > 0 && !(validTTLs.contains req.ttl) then ⟨400, st, [], [], false⟩
      else
        let ttl1 : Int := if req.ttl ≤ 0 then 120 else req.ttl
        let inserted := st.createRecord ⟨0, zoneName, name1, req.rtype, req.content, ttl1, req.priority⟩
        if req.rtype = "SOA" then ⟨201, inserted.1, [], [inserted.2], false⟩
        else
          match updateZoneSOASerial cfg now zoneName inserted.1 with
          | .ok (st2, dels) => ⟨201, st2, dels, [inserted.2], true⟩
          | .error _ => ⟨201, inserted.1, [], [inserted.2], true⟩

/-- APIServer.updateRecordHandler: zone and record existence checks, zone
    membership check, field updates (content when non-empty, ttl when positive
    and whitelisted else bad-request, priority unconditionally), persistence,
    SOA serial bump for non-SOA types, in-process deletion of both cache key
    shapes for the record, and the publish of the updated record. -/
def updateRecordHandler (cfg : SOAConfig) (now : Nat) (zoneName : String)
    (recordID : Int) (upd : UpdateReq) (st : Store) : MutationResult :=
  match st.getZone zoneName with
  | none => ⟨404, st, [], [], false⟩
  | some _ =>
    match st.getRecordByID recordID with
    | none => ⟨404, st, [], [], false⟩
    | some record =>
      if record.zone ≠ zoneName then ⟨400, st, [], [], false⟩
      else
        let r1 := if !(upd.content.str = "") then { record with content := upd.content } else record
        if upd.ttl > 0 && !(validTTLs.contains upd.ttl) then ⟨400, st, [], [], false⟩
        else
          let r2 := if upd.ttl > 0 then { r1 with ttl := upd.ttl } else r1
          let r3 := { r2 with priority := upd.priority }
          let st1 := st.updateRecord r3
          match
            (if record.rtype = "SOA" then Sum.inl st1
             else Sum.inr (updateZoneSOASerial cfg now zoneName st1)) with
          | Sum.inl s =>
            ⟨200, s, [recordKey record.zone record.name record.rtype,
              recordsKey record.zone record.name record.rtype], [r3], false⟩
          | Sum.inr (.ok (s, dels)) =>
            ⟨200, s, dels ++ [recordKey record.zone record.name record.rtype,
              recordsKey record.zone record.name record.rtype], [r3], true⟩
          | Sum.inr (.error _) =>
            ⟨200, st1, [recordKey record.zone record.name record.rtype,
              recordsKey record.zone record.name record.rtype], [r3], true⟩

/-- APIServer.deleteRecordHandler: zone and record existence checks (no zone
    membership check in the source), deletion, SOA serial bump for non-SOA
    types, in-process deletion of both cache key shapes for the deleted
    record, and the publish of its pre-deletion state. -/
def deleteRecordHandler (cfg : SOAConfig) (now : Nat) (zoneName : String)
    (recordID : Int) (st : Store) : MutationResult :=
  match st.getZone zoneName with
  | none => ⟨404, st, [], [], false⟩
  | some _ =>
    match st.getRecordByID recordID with
    | none => ⟨404, st, [], [], false⟩
    | some record =>
      let st1 := st.deleteRecord recordID
      match
        (if record.rtype = "SOA" then Sum.inl st1
         else Sum.inr (updateZoneSOASerial cfg now zoneName st1)) with
      | Sum.inl s =>
        ⟨200, s, [recordKey record.zone record.name record.rtype,
          recordsKey record.zone record.name record.rtype], [record], false⟩
      | Sum.inr (.ok (s, dels)) =>
        ⟨200, s, dels ++ [recordKey record.zone record.name record.rtype,
          recordsKey record.zone record.name record.rtype], [record], true⟩
      | Sum.inr (.error _) =>
        ⟨200, st1, [recordKey record.zone record.name record.rtype,
          recordsKey record.zone record.name record.rtype], [record], true⟩

/-- The SOA serial currently observable for a zone: the serial of the first
    SOA record at the apex, when present and decodable. -/
def getSOASerial (st : Store) (zone : String) : Option Nat :=
  match st.getRecordsByNameAndType zone zone "SOA" with
  | [] => none
  | r :: _ =>
    match r.content with
    | .soaData d => some d.serial
    | _ => none

/-- A message received on the invalidation channel: a payload that unmarshals
    to a record, or a malformed payload. -/
inductive BusMsg
  | recordMsg (r : Record)
  | malformed
deriving DecidableEq, Repr

/-- RedisClient.PublishRecordUpdate: marshal the record and publish it on the
    update channel. -/
def publishRecordUpdate (r : Record) : String × BusMsg :=
  (publishChannel, .recordMsg r)

/-- DNSServer.listenForRecordUpdates, body of one loop iteration: a malformed
    payload is logged and skipped (continue); a record payload deletes the
    single-record key then the record-set key for the message's
    (zone, name, type). Returns the keys deleted. -/
def processRecordUpdate : BusMsg → List String
  | .malformed => []
  | .recordMsg r =>
    [recordKey r.zone r.name r.rtype, recordsKey r.zone r.name r.rtype]

/-- DNSServer.listenForRecordUpdates over the stream of messages received
    before the cancellation signal fires: every message is processed in turn
    and the loop never terminates early on a malformed message. Returns all
    keys deleted, in order. -/
def listenForRecordUpdates (msgs : List BusMsg) : List String :=
  msgs.flatMap processRecordUpdate

instance {e a : Type} [DecidableEq e] [DecidableEq a] : DecidableEq (Except e a) := fun x y =>
  match x, y with
  | .ok u, .ok v =>
    if h : u = v then .isTrue (by rw [h]) else .isFalse (by intro hc; cases hc; exact h rfl)
  | .error u, .error v =>
    if h : u = v then .isTrue (by rw [h]) else .isFalse (by intro hc; cases hc; exact h rfl)
  | .ok _, .error _ => .isFalse (by intro hc; cases hc)
  | .error _, .ok _ => .isFalse (by intro hc; cases hc)

/-- MariaDBClient.GetZone as seen through the fallible store interface when
    the store is reachable: SELECT by name against the zones table, returning
    the stored name (the query is by equality, so the returned zone.Name
    equals the probed name) or the not-found sentinel, and never an error. -/
def zoneLookupPure (zones : List String) (n : String) : Except Unit (Option String) :=
  .ok (if zones.contains n then some n else none)

theorem findZonePure_found (zones : List String) :
    ∀ (parts : List String) (z : String),
      findZoneGo (zoneLookupPure zones) parts = .ok z → z ≠ "" →
      zones.contains z = true ∧
      ∃ s, s ≠ [] ∧ s <:+ parts ∧ z = joinDot s ∧
        ∀ t, t <:+ parts → s.length < t.length →
          zones.contains (joinDot t) = false := by
  intro parts
  induction parts with
  | nil =>
    intro z hz hne
    simp only [findZoneGo] at hz
    cases hz
    exact absurd rfl hne
  | cons p rest ih =>
    intro z hz hne
    by_cases hc : zones.contains (joinDot (p :: rest)) = true
    · simp only [findZoneGo, zoneLookupPure, hc, if_pos] at hz
      cases hz
      refine ⟨hc, p :: rest, by simp, List.suffix_refl _, rfl, ?_⟩
      intro t ht hlen
      exact absurd ht.length_le (by omega)
    · have hc' : zones.contains (joinDot (p :: rest)) = false := by
        simpa using hc
      simp only [findZoneGo, zoneLookupPure, hc', Bool.false_eq_true, if_false] at hz
      obtain ⟨hcz, s, hs0, hssuf, hzj, hlong⟩ := ih z hz hne
      refine ⟨hcz, s, hs0, hssuf.trans (List.suffix_cons p rest), hzj, ?_⟩
      intro t ht hlen
      rcases List.suffix_cons_iff.mp ht with rfl | ht'
      · exact hc'
      · exact hlong t ht' hlen

theorem findZonePure_none (zones : List String) (hz0 : zones.contains "" = false) :
    ∀ parts : List String,
      findZoneGo (zoneLookupPure zones) parts = .ok "" →
      ∀ t, t <:+ parts → t ≠ [] → zones.contains (joinDot t) = false := by
  intro parts
  induction parts with
  | nil =>
    intro _ t ht htne
    exact absurd (List.suffix_nil.mp ht) htne
  | cons p rest ih =>
    intro hz t ht htne
    by_cases hc : zones.contains (joinDot (p :: rest)) = true
    · simp only [findZoneGo, zoneLookupPure, hc, if_pos, Except.ok.injEq] at hz
      rw [hz] at hc
      rw [hz0] at hc
      exact absurd hc (by simp)
    · have hc' : zones.contains (joinDot (p :: rest)) = false := by
        simpa using hc
      simp only [findZoneGo, zoneLookupPure, hc', Bool.false_eq_true, if_false] at hz
      rcases List.suffix_cons_iff.mp ht with rfl | ht'
      · exact hc'
      · exact ih hz t ht' htne

theorem findZonePure_no_error (zones : List String) :
    ∀ parts : List String,
      findZoneGo (zoneLookupPure zones) parts ≠ .error () := by
  intro parts
  induction parts with
  | nil => simp [findZoneGo]
  | cons p rest ih =>
    by_cases hc : zones.contains (joinDot (p :: rest)) = true
    · simp only [findZoneGo, zoneLookupPure, hc, if_pos]
      simp
    · have hc' : zones.contains (joinDot (p :: rest)) = false := by simpa using hc
      simpa only [findZoneGo, zoneLookupPure, hc', Bool.false_eq_true, if_false] using ih

/-- C3: over a reachable store whose zone table has no empty name, findZone
    splits the query name into dot-separated labels and returns the first
    candidate suffix (probing from the full name, dropping the leftmost label
    each round) present in the zone table — hence the longest matching suffix:
    any strictly longer candidate suffix is absent from the table. When no
    candidate matches, it returns the empty no-zone sentinel without error,
    and it never errors. In particular a query under a registered subzone of a
    registered ancestor zone resolves to the subzone. -/
theorem c3_findZone_longest_suffix (zones : List String) (name : String)
    (hz0 : zones.contains "" = false) :
    (∀ z, findZone (zoneLookupPure zones) name = .ok z → z ≠ "" →
      zones.contains z = true ∧
      ∃ s, s ≠ [] ∧ s <:+ splitDot name ∧ z = joinDot s ∧
        ∀ t, t <:+ splitDot name → s.length < t.length →
          zones.contains (joinDot t) = false)
  ∧ (findZone (zoneLookupPure zones) name = .ok "" →
      ∀ t, t <:+ splitDot name → t ≠ [] → zones.contains (joinDot t) = false)
  ∧ findZone (zoneLookupPure zones) name ≠ .error ()
  ∧ findZone (zoneLookupPure ["example.com", "sub.example.com"])
      "host.sub.example.com" = .ok "sub.example.com" := by
  refine ⟨?_, ?_, ?_, by decide⟩
  · intro z hz hne
    exact findZonePure_found zones (splitDot name) z hz hne
  · intro hz
    exact findZonePure_none zones hz0 (splitDot name) hz
  · exact findZonePure_no_error zones (splitDot name)

/-- C3 witness: the theorem applied to the two-zone store of the claim's
    example, with every hypothesis discharged at that concrete input. -/
theorem c3_findZone_longest_suffix_witness :
    (["example.com", "sub.example.com"] : List String).contains "sub.example.com" = true ∧
    ∃ s, s ≠ [] ∧ s <:+ splitDot "host.sub.example.com" ∧
      "sub.example.com" = joinDot s ∧
      ∀ t, t <:+ splitDot "host.sub.example.com" → s.length < t.length →
        (["example.com", "sub.example.com"] : List String).contains (joinDot t) = false :=
  (c3_findZone_longest_suffix ["example.com", "sub.example.com"]
    "host.sub.example.com" (by decide)).1 "sub.example.com" (by decide) (by decide)

theorem resolveStep5_hit_false (env : DnsEnv) (zone name rtype qname : String)
    (out : ResolveOut) (h : resolveStep5 env zone name rtype qname = .ok out) :
    out.hit = false := by
  simp only [resolveStep5] at h
  split at h
  · simp at h
  · cases h
    rfl
  · split at h
    · simp at h
    · cases h
      rfl

theorem resolveMiss_hit_false (env : DnsEnv) (zone name rtype qname : String)
    (out : ResolveOut) (h : resolveMiss env zone name rtype qname = .ok out) :
    out.hit = false := by
  simp only [resolveMiss] at h
  split at h
  · simp at h
  · exact resolveStep5_hit_false env zone name rtype qname out h
  · cases h
    rfl

theorem resolveStep2_hit_shape (env : DnsEnv) (zone name rtype qname : String)
    (out : ResolveOut) (h : resolveStep2 env zone name rtype qname = .ok out)
    (hhit : out.hit = true) :
    out.setWrites = [] ∧ out.singleWrites = [] ∧
    out.dbSetRead = false ∧ out.dbSingleRead = false := by
  simp only [resolveStep2] at h
  split at h
  · split at h
    · simp at h
    · cases h
      exact ⟨rfl, rfl, rfl, rfl⟩
  · rw [resolveMiss_hit_false env zone name rtype qname out h] at hhit
    simp at hhit
  · rw [resolveMiss_hit_false env zone name rtype qname out h] at hhit
    simp at hhit

/-- C1: the resolution engine, per branch. (1) A record-set cache probe that
    returns without error and non-empty answers from the cache: no store read,
    no cache write, a hit. (2) Otherwise a legacy single-record cache probe
    that returns a record answers it: no store read, no cache write, a hit.
    (3) On a full cache miss the store is queried for all matching records;
    a non-empty result is returned and written back under the record-set key
    (a SetRecords call carrying the records and the first record's TTL).
    (4) An empty result falls back to the single-record store read; a found
    record is returned and cached under the single-record key. (5) Otherwise
    the result is empty. Finally, any hit outcome performed no store read and
    attempted no cache write. -/
theorem c1_resolution_order (env : DnsEnv) (zone name rtype qname : String) :
    (∀ r0 rs, redisGetRecordsByNameAndType env.cache zone name rtype = .ok (r0 :: rs) →
      resolveRecords env zone name rtype qname =
        .ok ⟨synthAll (r0 :: rs) qname, r0 :: rs, true, false, false, [], []⟩)
  ∧ (∀ r a,
      (redisGetRecordsByNameAndType env.cache zone name rtype = .ok [] ∨
       redisGetRecordsByNameAndType env.cache zone name rtype = .error ()) →
      redisGetRecord env.cache zone name rtype = .ok (some r) →
      addAnswerFromRecord r qname = .ok a →
      resolveRecords env zone name rtype qname =
        .ok ⟨[a], [r], true, false, false, [], []⟩)
  ∧ (∀ r0 rs,
      (redisGetRecordsByNameAndType env.cache zone name rtype = .ok [] ∨
       redisGetRecordsByNameAndType env.cache zone name rtype = .error ()) →
      (redisGetRecord env.cache zone name rtype = .ok none ∨
       redisGetRecord env.cache zone name rtype = .error ()) →
      env.dbGetRecords zone name rtype = .ok (r0 :: rs) →
      resolveRecords env zone name rtype qname =
        .ok ⟨synthAll (r0 :: rs) qname, r0 :: rs, false, true, false,
          [(r0 :: rs, r0.ttl)], []⟩)
  ∧ (∀ r a,
      (redisGetRecordsByNameAndType env.cache zone name rtype = .ok [] ∨
       redisGetRecordsByNameAndType env.cache zone name rtype = .error ()) →
      (redisGetRecord env.cache zone name rtype = .ok none ∨
       redisGetRecord env.cache zone name rtype = .error ()) →
      env.dbGetRecords zone name rtype = .ok [] →
      env.dbGetRecord zone name rtype = .ok (some r) →
      addAnswerFromRecord r qname = .ok a →
      resolveRecords env zone name rtype qname =
        .ok ⟨[a], [r], false, true, true, [], [(r, r.ttl)]⟩)
  ∧ ((redisGetRecordsByNameAndType env.cache zone name rtype = .ok [] ∨
       redisGetRecordsByNameAndType env.cache zone name rtype = .error ()) →
      (redisGetRecord env.cache zone name rtype = .ok none ∨
       redisGetRecord env.cache zone name rtype = .error ()) →
      env.dbGetRecords zone name rtype = .ok [] →
      env.dbGetRecord zone name rtype = .ok none →
      resolveRecords env zone name rtype qname =
        .ok ⟨[], [], false, true, true, [], []⟩)
  ∧ (∀ out, resolveRecords env zone name rtype qname = .ok out → out.hit = true →
      out.setWrites = [] ∧ out.singleWrites = [] ∧
      out.dbSetRead = false ∧ out.dbSingleRead = false) := by
  refine ⟨?_, ?_, ?_, ?_, ?_, ?_⟩
  · intro r0 rs h
    simp only [resolveRecords, h]
  · intro r a hm hs hsy
    rcases hm with hm | hm <;>
      simp only [resolveRecords, hm, resolveStep2, hs, hsy]
  · intro r0 rs hm hs hdb
    rcases hm with hm | hm <;> rcases hs with hs | hs <;>
      simp only [resolveRecords, hm, resolveStep2, hs, resolveMiss, hdb]
  · intro r a hm hs hdb hdb2 hsy
    rcases hm with hm | hm <;> rcases hs with hs | hs <;>
      simp only [resolveRecords, hm, resolveStep2, hs, resolveMiss, hdb,
        resolveStep5, hdb2, hsy]
  · intro hm hs hdb hdb2
    rcases hm with hm | hm <;> rcases hs with hs | hs <;>
      simp only [resolveRecords, hm, resolveStep2, hs, resolveMiss, hdb,
        resolveStep5, hdb2]
  · intro out h hhit
    simp only [resolveRecords] at h
    split at h
    · cases h
      exact ⟨rfl, rfl, rfl, rfl⟩
    · exact resolveStep2_hit_shape env zone name rtype qname out h hhit
    · exact resolveStep2_hit_shape env zone name rtype qname out h hhit

/-- The concrete address record used by the witnesses and counterexamples. -/
def rA : Record := ⟨7, "example.com", "www.example.com", "A", .raw "192.0.2.1", 3600, 0⟩

/-- A concrete environment whose record-set cache key for rA holds [rA] and
    whose store is empty. -/
def envHit : DnsEnv :=
  ⟨fun k => if k = recordsKey "example.com" "www.example.com" "A"
      then .val (.recs [rA]) else .missing,
   fun _ => .ok none, fun _ _ _ => .ok [], fun _ _ _ => .ok none⟩

/-- C1 witness: the record-set cache-hit branch of the theorem at a concrete
    environment. -/
theorem c1_resolution_order_witness :
    redisGetRecordsByNameAndType envHit.cache "example.com" "www.example.com" "A" =
      .ok [rA] ∧
    resolveRecords envHit "example.com" "www.example.com" "A" "www.example.com." =
      .ok ⟨synthAll [rA] "www.example.com.", [rA], true, false, false, [], []⟩ :=
  ⟨by decide,
   (c1_resolution_order envHit "example.com" "www.example.com" "A"
      "www.example.com.").1 rA [] (by decide)⟩

/-- A concrete environment whose store is unreachable: every store call
    errors. -/
def envStoreDown : DnsEnv :=
  ⟨fun _ => .missing, fun _ => .error (), fun _ _ _ => .error (),
   fun _ _ _ => .error ()⟩

/-- A concrete environment whose cache GETs all yield bytes that fail to
    unmarshal, over a healthy store holding zone example.com and the single
    address record rA. -/
def envJunkCache : DnsEnv :=
  ⟨fun _ => .val .junk, zoneLookupPure ["example.com"],
   fun z n t =>
     if z == "example.com" && n == "www.example.com" && t == "A"
     then .ok [rA] else .ok [],
   fun _ _ _ => .ok none⟩

/-- C7: evaluation at the failing input. When the store errors during the
    read path, handleQuery returns the error and ServeDNS increments the
    server-failure counter and sets the server-failure rcode — but the final
    rcode the client sees is name-error, because the empty answer section
    unconditionally overwrites the rcode. By contrast a cache that fails on
    every read is absorbed: the same query against a healthy store still
    succeeds with the store's answer and no failure is recorded. -/
theorem c7_store_failure_yields_nameError :
    handleQuery envStoreDown "www.example.com." "A" = .error ()
  ∧ serveDNS envStoreDown "www.example.com." "A" = (Rcode.nameError, [], true)
  ∧ Rcode.nameError ≠ Rcode.serverFailure
  ∧ serveDNS envJunkCache "www.example.com." "A" =
      (Rcode.noError, [Answer.aRR "www.example.com." 3600 "192.0.2.1"], false) := by
  refine ⟨by decide, by decide, by decide, by decide⟩

/-- C8: per-record synthesis failures are isolated. (1) A record whose
    synthesis fails (malformed structured content or unsupported type)
    contributes no answer and does not disturb the answers of its siblings in
    the same set. (2) On the record-set cache-hit path and (3) on the
    record-set store path the engine returns successfully with exactly the
    successful answers, whatever per-record failures occurred. (4) At the
    message level the final rcode is never the server-failure code, so a
    synthesis failure is never surfaced to the client as a distinct error
    code. -/
theorem c8_synth_failure_isolation :
    (∀ pre post r qname e, addAnswerFromRecord r qname = .error e →
      synthAll (pre ++ r :: post) qname = synthAll (pre ++ post) qname)
  ∧ (∀ env zone name rtype qname r0 rs,
      redisGetRecordsByNameAndType env.cache zone name rtype = .ok (r0 :: rs) →
      resolveRecords env zone name rtype qname =
        .ok ⟨synthAll (r0 :: rs) qname, r0 :: rs, true, false, false, [], []⟩)
  ∧ (∀ env zone name rtype qname r0 rs,
      (redisGetRecordsByNameAndType env.cache zone name rtype = .ok [] ∨
       redisGetRecordsByNameAndType env.cache zone name rtype = .error ()) →
      (redisGetRecord env.cache zone name rtype = .ok none ∨
       redisGetRecord env.cache zone name rtype = .error ()) →
      env.dbGetRecords zone name rtype = .ok (r0 :: rs) →
      resolveRecords env zone name rtype qname =
        .ok ⟨synthAll (r0 :: rs) qname, r0 :: rs, false, true, false,
          [(r0 :: rs, r0.ttl)], []⟩)
  ∧ (∀ env qname rtype, (serveDNS env qname rtype).1 ≠ Rcode.serverFailure) := by
  refine ⟨?_, ?_, ?_, ?_⟩
  · intro pre post r qname e h
    simp [synthAll, List.filterMap_append, List.filterMap_cons, h, Except.toOption]
  · intro env zone name rtype qname r0 rs h
    simp only [resolveRecords, h]
  · intro env zone name rtype qname r0 rs hm hs hdb
    rcases hm with hm | hm <;> rcases hs with hs | hs <;>
      simp only [resolveRecords, hm, resolveStep2, hs, resolveMiss, hdb]
  · intro env qname rtype
    cases h : handleQuery env qname rtype with
    | error e => simp [serveDNS, h]
    | ok out =>
      simp only [serveDNS, h]
      split <;> simp

/-- A record of SOA type whose content is a plain string that is not a JSON
    encoding of an SOA payload, so its synthesis fails as malformed. -/
def rBadSOA : Record := ⟨9, "example.com", "example.com", "SOA", .raw "not-json", 60, 0⟩

/-- C8 witness: the sibling-isolation conjunct applied to a concrete set with
    one good address record and one malformed SOA record. -/
theorem c8_synth_failure_isolation_witness :
    addAnswerFromRecord rBadSOA "example.com." = .error .malformedRecordContent
  ∧ synthAll ([rA] ++ rBadSOA :: []) "example.com." =
      synthAll ([rA] ++ []) "example.com." :=
  ⟨by decide,
   c8_synth_failure_isolation.1 [rA] [] rBadSOA "example.com."
     .malformedRecordContent (by decide)⟩

/-- C9: the invalidation protocol's identifiers and the subscriber's
    behavior. The two cache key shapes evaluate to exactly the documented
    formats; the publisher and subscriber use the same channel name
    "dns:record:update"; a published message carries the serialized record;
    a received record message deletes exactly both cache key shapes for the
    message's (zone, name, type) and the loop continues; a malformed message
    deletes nothing and the loop continues with the remaining messages. -/
theorem c9_invalidation_protocol :
    recordsKey "example.com" "www.example.com" "A" =
      "dns:records:example.com:www.example.com:A"
  ∧ recordKey "example.com" "www.example.com" "A" =
      "dns:record:example.com:www.example.com:A"
  ∧ publishChannel = "dns:record:update"
  ∧ subscribeChannel = publishChannel
  ∧ (∀ r, publishRecordUpdate r = (publishChannel, BusMsg.recordMsg r))
  ∧ (∀ r msgs, listenForRecordUpdates (BusMsg.recordMsg r :: msgs) =
      recordKey r.zone r.name r.rtype :: recordsKey r.zone r.name r.rtype ::
        listenForRecordUpdates msgs)
  ∧ (∀ msgs, listenForRecordUpdates (BusMsg.malformed :: msgs) =
      listenForRecordUpdates msgs) := by
  refine ⟨by decide, by decide, rfl, rfl, fun r => rfl, ?_, ?_⟩
  · intro r msgs
    simp [listenForRecordUpdates, processRecordUpdate]
  · intro msgs
    simp [listenForRecordUpdates, processRecordUpdate]

/-- A concrete environment with an empty cache over a healthy store holding
    zone example.com and the single address record rA (stored TTL 3600). -/
def envStoreA : DnsEnv :=
  ⟨fun _ => .missing, zoneLookupPure ["example.com"],
   fun z n t =>
     if z == "example.com" && n == "www.example.com" && t == "A"
     then .ok [rA] else .ok [],
   fun _ _ _ => .ok none⟩

/-- C2 counterexample: a cache-miss read obtains rA (stored TTL 3600) from
    the store and calls SetRecords with 3600 as the ttl argument, but with the
    deployment configured for a 300-second cache TTL the entry is written with
    expiration 300, not the claimed 3600. -/
theorem c2_counterexample :
    resolveRecords envStoreA "example.com" "www.example.com" "A" "www.example.com." =
      .ok ⟨synthAll [rA] "www.example.com.", [rA], false, true, false,
        [([rA], 3600)], []⟩
  ∧ rA.ttl = 3600
  ∧ SetRecords 300 [rA] rA.ttl =
      some (recordsKey "example.com" "www.example.com" "A", [rA], some 300)
  ∧ some (300 : Nat) ≠ some (3600 : Nat) := by
  refine ⟨by decide, by decide, by decide, by decide⟩

/-- C2 (amended): the cache entry written on a cache-miss fill carries the
    configured Redis cache TTL as its expiration — or no expiration when the
    configured value is the 0 sentinel — regardless of the ttl argument the
    read path passes (which is the first record's stored TTL and is ignored
    by SetRecords). -/
theorem c2_cache_entry_ttl :
    (∀ cfgTTL r0 rest t1 t2, SetRecords cfgTTL (r0 :: rest) t1 =
      SetRecords cfgTTL (r0 :: rest) t2)
  ∧ (∀ cfgTTL r0 rest t, SetRecords cfgTTL (r0 :: rest) t =
      some (recordsKey r0.zone r0.name r0.rtype, r0 :: rest,
        if cfgTTL = 0 then none else some cfgTTL))
  ∧ (∀ env zone name rtype qname r0 rs,
      (redisGetRecordsByNameAndType env.cache zone name rtype = .ok [] ∨
       redisGetRecordsByNameAndType env.cache zone name rtype = .error ()) →
      (redisGetRecord env.cache zone name rtype = .ok none ∨
       redisGetRecord env.cache zone name rtype = .error ()) →
      env.dbGetRecords zone name rtype = .ok (r0 :: rs) →
      ∃ out, resolveRecords env zone name rtype qname = .ok out ∧
        out.setWrites = [(r0 :: rs, r0.ttl)]) := by
  refine ⟨fun _ _ _ _ _ => rfl, fun _ _ _ _ => rfl, ?_⟩
  intro env zone name rtype qname r0 rs hm hs hdb
  have hres : resolveRecords env zone name rtype qname =
      .ok ⟨synthAll (r0 :: rs) qname, r0 :: rs, false, true, false,
        [(r0 :: rs, r0.ttl)], []⟩ := by
    rcases hm with hm | hm <;> rcases hs with hs | hs <;>
      simp only [resolveRecords, hm, resolveStep2, hs, resolveMiss, hdb]
  exact ⟨_, hres, rfl⟩

/-- C2 witness: the read-path conjunct of the amended theorem at the concrete
    empty-cache environment over the store holding rA. -/
theorem c2_cache_entry_ttl_witness :
    ∃ out, resolveRecords envStoreA "example.com" "www.example.com" "A"
        "www.example.com." = .ok out ∧
      out.setWrites = [([rA], rA.ttl)] :=
  c2_cache_entry_ttl.2.2 envStoreA "example.com" "www.example.com" "A"
    "www.example.com." rA [] (Or.inl (by decide)) (Or.inl (by decide)) (by decide)

/-- The configured SOA defaults used by the concrete mutation scenarios. -/
def soaCfgEx : SOAConfig :=
  ⟨"ns1.example.com", "admin.example.com", 7200, 3600, 1209600, 86400⟩

/-- A concrete SOA payload with serial 1. -/
def soaEx : SOARecordData :=
  ⟨"ns1.example.com", "admin.example.com", 1, 7200, 3600, 1209600, 86400⟩

/-- The apex SOA record of the concrete zone example.com. -/
def soaRecEx : Record :=
  ⟨1, "example.com", "example.com", "SOA", .soaData soaEx, 86400, 0⟩

/-- A concrete store holding zone example.com with only its SOA record. -/
def stEx : Store := ⟨["example.com"], [soaRecEx], 2⟩

/-- A concrete create request: an address record www -> 192.0.2.1, TTL 120. -/
def reqEx : CreateReq := ⟨"www", "A", .raw "192.0.2.1", 120, 0⟩

/-- C6 counterexample: a successful create of www.example.com/A deletes
    neither cache key shape for the mutated record's (zone, name, type)
    in-process — the only in-process deletions are the SOA-record keys removed
    by the serial bump — refuting the claim for the create mutation. -/
theorem c6_counterexample :
    (createRecordHandler soaCfgEx 100 "example.com" reqEx stEx).status = 201
  ∧ ((createRecordHandler soaCfgEx 100 "example.com" reqEx stEx).cacheDels.contains
      (recordKey "example.com" "www.example.com" "A")) = false
  ∧ ((createRecordHandler soaCfgEx 100 "example.com" reqEx stEx).cacheDels.contains
      (recordsKey "example.com" "www.example.com" "A")) = false
  ∧ (createRecordHandler soaCfgEx 100 "example.com" reqEx stEx).cacheDels =
      [recordKey "example.com" "example.com" "SOA",
       recordsKey "example.com" "example.com" "SOA"]
  ∧ (createRecordHandler soaCfgEx 100 "example.com" reqEx stEx).published =
      [⟨2, "example.com", "www.example.com", "A", .raw "192.0.2.1", 120, 0⟩] := by
  refine ⟨by decide, by decide, by decide, by decide, by decide⟩

/-- C6 (amended): the update and delete mutation handlers delete both cache
    key shapes for the mutated record's (zone, name, type) in-process before
    responding; the create handler does not (it only publishes the
    invalidation event, and its in-process deletions are limited to the SOA
    keys removed by the serial bump — see the counterexample). -/
theorem c6_update_delete_invalidate_inprocess :
    (∀ cfg now zoneName recordID upd st r,
      st.zones.contains zoneName = true →
      st.getRecordByID recordID = some r →
      r.zone = zoneName →
      (upd.ttl > 0 → validTTLs.contains upd.ttl = true) →
      (updateRecordHandler cfg now zoneName recordID upd st).status = 200 ∧
      recordKey r.zone r.name r.rtype ∈
        (updateRecordHandler cfg now zoneName recordID upd st).cacheDels ∧
      recordsKey r.zone r.name r.rtype ∈
        (updateRecordHandler cfg now zoneName recordID upd st).cacheDels)
  ∧ (∀ cfg now zoneName recordID st r,
      st.zones.contains zoneName = true →
      st.getRecordByID recordID = some r →
      (deleteRecordHandler cfg now zoneName recordID st).status = 200 ∧
      recordKey r.zone r.name r.rtype ∈
        (deleteRecordHandler cfg now zoneName recordID st).cacheDels ∧
      recordsKey r.zone r.name r.rtype ∈
        (deleteRecordHandler cfg now zoneName recordID st).cacheDels) := by
  constructor
  · intro cfg now zoneName recordID upd st r hzone hrec hrz httl
    have hb : (decide (upd.ttl > 0) && !(validTTLs.contains upd.ttl)) = false := by
      by_cases hp : upd.ttl > 0
      · have hc : upd.ttl ∈ validTTLs := by simpa using httl hp
        simp [hc]
      · simp [hp]
    simp only [updateRecordHandler, Store.getZone, hzone, if_pos, hrec, hrz, hb]
    simp only [ne_eq, not_true_eq_false, Bool.false_eq_true, if_false]
    split <;>
      simp [List.mem_append]
  · intro cfg now zoneName recordID st r hzone hrec
    simp only [deleteRecordHandler, Store.getZone, hzone, if_pos, hrec]
    split <;>
      simp [List.mem_append]

/-- The stored address record used by the update/delete witnesses. -/
def rAStored : Record :=
  ⟨2, "example.com", "www.example.com", "A", .raw "192.0.2.1", 120, 0⟩

/-- A concrete store holding zone example.com with its SOA record and the
    address record rAStored. -/
def stEx2 : Store := ⟨["example.com"], [soaRecEx, rAStored], 3⟩

/-- C6 witness: the update conjunct of the amended theorem at a concrete
    update of rAStored's content. -/
theorem c6_update_delete_invalidate_inprocess_witness :
    (updateRecordHandler soaCfgEx 100 "example.com" 2
      ⟨.raw "192.0.2.2", 0, 0⟩ stEx2).status = 200 ∧
    recordKey rAStored.zone rAStored.name rAStored.rtype ∈
      (updateRecordHandler soaCfgEx 100 "example.com" 2
        ⟨.raw "192.0.2.2", 0, 0⟩ stEx2).cacheDels ∧
    recordsKey rAStored.zone rAStored.name rAStored.rtype ∈
      (updateRecordHandler soaCfgEx 100 "example.com" 2
        ⟨.raw "192.0.2.2", 0, 0⟩ stEx2).cacheDels :=
  c6_update_delete_invalidate_inprocess.1 soaCfgEx 100 "example.com" 2
    ⟨.raw "192.0.2.2", 0, 0⟩ stEx2 rAStored (by decide) (by decide) (by decide)
    (by intro h; exact absurd h (by decide))

/-- C10: TTL validation on the administrative mutation handlers. On create, a
    non-positive requested TTL is replaced by the 120-second default and the
    request succeeds; a positive whitelisted TTL is stored as requested; a
    positive TTL outside the 20-value whitelist is rejected with status 400,
    leaving the store unchanged and publishing nothing. On update, a
    non-positive requested TTL leaves the record's TTL unchanged; a positive
    whitelisted TTL replaces it; a positive non-whitelisted TTL is rejected
    with status 400, leaving the store unchanged and publishing nothing. -/
theorem c10_ttl_whitelist :
    (∀ cfg now zone req st,
      st.zones.contains zone = true → req.name ≠ "" → req.rtype ≠ "" →
      req.content.str ≠ "" → req.ttl ≤ 0 →
      (createRecordHandler cfg now zone req st).status = 201 ∧
      (createRecordHandler cfg now zone req st).published.map Record.ttl = [120])
  ∧ (∀ cfg now zone req st,
      st.zones.contains zone = true → req.name ≠ "" → req.rtype ≠ "" →
      req.content.str ≠ "" → req.ttl > 0 → req.ttl ∈ validTTLs →
      (createRecordHandler cfg now zone req st).status = 201 ∧
      (createRecordHandler cfg now zone req st).published.map Record.ttl = [req.ttl])
  ∧ (∀ cfg now zone req st,
      st.zones.contains zone = true → req.name ≠ "" → req.rtype ≠ "" →
      req.content.str ≠ "" → req.ttl > 0 → req.ttl ∉ validTTLs →
      (createRecordHandler cfg now zone req st).status = 400 ∧
      (createRecordHandler cfg now zone req st).store = st ∧
      (createRecordHandler cfg now zone req st).published = [])
  ∧ (∀ cfg now zone recordID upd st r,
      st.zones.contains zone = true → st.getRecordByID recordID = some r →
      r.zone = zone → upd.ttl ≤ 0 →
      (updateRecordHandler cfg now zone recordID upd st).status = 200 ∧
      (updateRecordHandler cfg now zone recordID upd st).published.map Record.ttl =
        [r.ttl])
  ∧ (∀ cfg now zone recordID upd st r,
      st.zones.contains zone = true → st.getRecordByID recordID = some r →
      r.zone = zone → upd.ttl > 0 → upd.ttl ∈ validTTLs →
      (updateRecordHandler cfg now zone recordID upd st).status = 200 ∧
      (updateRecordHandler cfg now zone recordID upd st).published.map Record.ttl =
        [upd.ttl])
  ∧ (∀ cfg now zone recordID upd st r,
      st.zones.contains zone = true → st.getRecordByID recordID = some r →
      r.zone = zone → upd.ttl > 0 → upd.ttl ∉ validTTLs →
      (updateRecordHandler cfg now zone recordID upd st).status = 400 ∧
      (updateRecordHandler cfg now zone recordID upd st).store = st ∧
      (updateRecordHandler cfg now zone recordID upd st).published = []) := by
  refine ⟨?_, ?_, ?_, ?_, ?_, ?_⟩
  · intro cfg now zone req st hzone hname htype hcontent httl
    have hz' : zone ∈ st.zones := by simpa using hzone
    have hp : ¬(req.ttl > 0) := by omega
    by_cases hsoa : req.rtype = "SOA" <;>
      simp [createRecordHandler, Store.getZone, Store.createRecord, hz', hname,
        htype, hcontent, hp, httl, hsoa] <;>
      split <;> simp [Store.createRecord]
  · intro cfg now zone req st hzone hname htype hcontent httl hmem
    have hz' : zone ∈ st.zones := by simpa using hzone
    have hnle : ¬(req.ttl ≤ 0) := by omega
    by_cases hsoa : req.rtype = "SOA" <;>
      simp [createRecordHandler, Store.getZone, Store.createRecord, hz', hname,
        htype, hcontent, httl, hmem, hnle, hsoa] <;>
      split <;> simp [Store.createRecord]
  · intro cfg now zone req st hzone hname htype hcontent httl hmem
    have hz' : zone ∈ st.zones := by simpa using hzone
    simp [createRecordHandler, Store.getZone, hz', hname, htype, hcontent,
      httl, hmem]
  · intro cfg now zone recordID upd st r hzone hrec hrz httl
    have hz' : zone ∈ st.zones := by simpa using hzone
    have hp : ¬(upd.ttl > 0) := by omega
    simp [updateRecordHandler, Store.getZone, hz', hrec, hrz, hp]
    split <;> simp <;> split <;> rfl
  · intro cfg now zone recordID upd st r hzone hrec hrz httl hmem
    have hz' : zone ∈ st.zones := by simpa using hzone
    have hnle : ¬(upd.ttl ≤ 0) := by omega
    simp [updateRecordHandler, Store.getZone, hz', hrec, hrz, httl, hmem, hnle]
    split <;> simp
  · intro cfg now zone recordID upd st r hzone hrec hrz httl hmem
    have hz' : zone ∈ st.zones := by simpa using hzone
    simp [updateRecordHandler, Store.getZone, hz', hrec, hrz, httl, hmem]

/-- C10 witness: the create-rejection conjunct at a concrete request with the
    non-whitelisted TTL 7, and its store-unchanged conclusion. -/
theorem c10_ttl_whitelist_witness :
    (createRecordHandler soaCfgEx 100 "example.com"
      ⟨"www", "A", .raw "192.0.2.1", 7, 0⟩ stEx).status = 400 ∧
    (createRecordHandler soaCfgEx 100 "example.com"
      ⟨"www", "A", .raw "192.0.2.1", 7, 0⟩ stEx).store = stEx ∧
    (createRecordHandler soaCfgEx 100 "example.com"
      ⟨"www", "A", .raw "192.0.2.1", 7, 0⟩ stEx).published = [] :=
  c10_ttl_whitelist.2.2.1 soaCfgEx 100 "example.com"
    ⟨"www", "A", .raw "192.0.2.1", 7, 0⟩ stEx (by decide) (by decide) (by decide)
    (by decide) (by decide) (by decide)

theorem getRecordsByNameAndType_updateRecord (st : Store) (r : Record)
    (z n t : String) :
    (st.updateRecord r).getRecordsByNameAndType z n t =
      (st.getRecordsByNameAndType z n t).map (fun x =>
        if x.id == r.id then
          { x with content := r.content, ttl := r.ttl, priority := r.priority }
        else x) := by
  simp only [Store.updateRecord, Store.getRecordsByNameAndType]
  rw [List.filter_map]
  congr 1
  apply List.filter_congr
  intro x _
  simp only [Function.comp_apply]
  split <;> rfl

theorem getRecordsByNameAndType_createRecord_nonSOA (st : Store) (r : Record)
    (h : r.rtype ≠ "SOA") (z n : String) :
    ((st.createRecord r).1).getRecordsByNameAndType z n "SOA" =
      st.getRecordsByNameAndType z n "SOA" := by
  simp only [Store.createRecord, Store.getRecordsByNameAndType]
  rw [List.filter_append]
  simp [h]

theorem getRecordsByNameAndType_deleteRecord (st : Store) (id : Int)
    (z n t : String) :
    (st.deleteRecord id).getRecordsByNameAndType z n t =
      (st.getRecordsByNameAndType z n t).filter (fun r => !(r.id == id)) := by
  simp only [Store.deleteRecord, Store.getRecordsByNameAndType]
  rw [List.filter_filter, List.filter_filter]
  congr 1
  funext x
  rw [Bool.and_comm]

theorem updateZoneSOASerial_spec (cfg : SOAConfig) (now : Nat) (zoneName : String)
    (st : Store) (r0 : Record) (tl : List Record) (d : SOARecordData)
    (h : st.getRecordsByNameAndType zoneName zoneName "SOA" = r0 :: tl)
    (hd : r0.content = .soaData d) :
    updateZoneSOASerial cfg now zoneName st =
      .ok (st.updateRecord
          { r0 with content := Content.soaData { d with serial := now % 2 ^ 32 } },
        [recordKey r0.zone r0.name r0.rtype, recordsKey r0.zone r0.name r0.rtype]) := by
  simp [updateZoneSOASerial, h, hd]

theorem bump_soa_records (st : Store) (zoneName : String) (r0 : Record)
    (tl : List Record) (d : SOARecordData) (now : Nat)
    (h : st.getRecordsByNameAndType zoneName zoneName "SOA" = r0 :: tl) :
    (st.updateRecord
        { r0 with content := Content.soaData { d with serial := now % 2 ^ 32 } }
      ).getRecordsByNameAndType zoneName zoneName "SOA" =
      { r0 with content := Content.soaData { d with serial := now % 2 ^ 32 } } ::
        tl.map (fun x =>
          if x.id == r0.id then
            { x with
              content := Content.soaData { d with serial := now % 2 ^ 32 },
              ttl := r0.ttl, priority := r0.priority }
          else x) := by
  rw [getRecordsByNameAndType_updateRecord, h]
  simp

theorem getSOASerial_of_head (st : Store) (zone : String) (r0 : Record)
    (tl : List Record) (d : SOARecordData)
    (h : st.getRecordsByNameAndType zone zone "SOA" = r0 :: tl)
    (hd : r0.content = .soaData d) :
    getSOASerial st zone = some d.serial := by
  simp [getSOASerial, h, hd]

/-- C5: invocation and effect of the SOA serial update. On each of the three
    mutation handlers, when the request passes its validations, the handler
    succeeds and updateZoneSOASerial is invoked exactly when the mutated
    record's type is not SOA. updateZoneSOASerial itself, when the zone has no
    SOA record, materializes and persists the default SOA from the configured
    defaults and deletes no cache keys; when the zone has an SOA record with a
    decodable payload it overwrites the serial, re-encodes, persists via
    UpdateRecord, and deletes both cache key shapes for that SOA record. -/
theorem c5_soa_bump_invocation :
    (∀ cfg now zone req st,
      st.zones.contains zone = true → req.name ≠ "" → req.rtype ≠ "" →
      req.content.str ≠ "" → (req.ttl > 0 → req.ttl ∈ validTTLs) →
      (createRecordHandler cfg now zone req st).status = 201 ∧
      ((createRecordHandler cfg now zone req st).soaBumped = true ↔
        req.rtype ≠ "SOA"))
  ∧ (∀ cfg now zone recordID upd st r,
      st.zones.contains zone = true → st.getRecordByID recordID = some r →
      r.zone = zone → (upd.ttl > 0 → upd.ttl ∈ validTTLs) →
      (updateRecordHandler cfg now zone recordID upd st).status = 200 ∧
      ((updateRecordHandler cfg now zone recordID upd st).soaBumped = true ↔
        r.rtype ≠ "SOA"))
  ∧ (∀ cfg now zone recordID st r,
      st.zones.contains zone = true → st.getRecordByID recordID = some r →
      (deleteRecordHandler cfg now zone recordID st).status = 200 ∧
      ((deleteRecordHandler cfg now zone recordID st).soaBumped = true ↔
        r.rtype ≠ "SOA"))
  ∧ (∀ (cfg : SOAConfig) (now : Nat) (zone : String) (st : Store),
      st.getRecordsByNameAndType zone zone "SOA" = [] →
      updateZoneSOASerial cfg now zone st =
        .ok (createDefaultSOARecord cfg now zone st, []))
  ∧ (∀ (cfg : SOAConfig) (now : Nat) (zone : String) (st : Store) r0 tl d,
      st.getRecordsByNameAndType zone zone "SOA" = r0 :: tl →
      r0.content = .soaData d →
      updateZoneSOASerial cfg now zone st =
        .ok (st.updateRecord
            { r0 with content := Content.soaData { d with serial := now % 2 ^ 32 } },
          [recordKey r0.zone r0.name r0.rtype,
           recordsKey r0.zone r0.name r0.rtype])) := by
  refine ⟨?_, ?_, ?_, ?_, ?_⟩
  · intro cfg now zone req st hzone hname htype hcontent httl
    have hz' : zone ∈ st.zones := by simpa using hzone
    by_cases hp : req.ttl > 0
    · have hmem : req.ttl ∈ validTTLs := httl hp
      by_cases hsoa : req.rtype = "SOA" <;>
        simp [createRecordHandler, Store.getZone, hz', hname, htype, hcontent,
          hp, hmem, hsoa] <;>
        split <;> simp
    · by_cases hsoa : req.rtype = "SOA" <;>
        simp [createRecordHandler, Store.getZone, hz', hname, htype, hcontent,
          hp, hsoa] <;>
        split <;> simp
  · intro cfg now zone recordID upd st r hzone hrec hrz httl
    have hz' : zone ∈ st.zones := by simpa using hzone
    by_cases hp : upd.ttl > 0
    · have hmem : upd.ttl ∈ validTTLs := httl hp
      by_cases hsoa : r.rtype = "SOA" <;>
        simp [updateRecordHandler, Store.getZone, hz', hrec, hrz, hp, hmem,
          hsoa] <;>
        split <;> simp_all
    · by_cases hsoa : r.rtype = "SOA" <;>
        simp [updateRecordHandler, Store.getZone, hz', hrec, hrz, hp, hsoa] <;>
        split <;> simp_all
  · intro cfg now zone recordID st r hzone hrec
    have hz' : zone ∈ st.zones := by simpa using hzone
    by_cases hsoa : r.rtype = "SOA" <;>
      simp [deleteRecordHandler, Store.getZone, hz', hrec, hsoa] <;>
      split <;> simp_all
  · intro cfg now zone st h
    simp [updateZoneSOASerial, h]
  · intro cfg now zone st r0 tl d h hd
    exact updateZoneSOASerial_spec cfg now zone st r0 tl d h hd

/-- C5 witness: the create conjunct at the concrete non-SOA create of an
    address record, whose bump is invoked, and the existing-SOA conjunct at
    the concrete store, whose invocation deletes both SOA cache key shapes. -/
theorem c5_soa_bump_invocation_witness :
    ((createRecordHandler soaCfgEx 100 "example.com" reqEx stEx).status = 201 ∧
      ((createRecordHandler soaCfgEx 100 "example.com" reqEx stEx).soaBumped = true ↔
        reqEx.rtype ≠ "SOA")) ∧
    updateZoneSOASerial soaCfgEx 100 "example.com" stEx =
      .ok (stEx.updateRecord
          { soaRecEx with content := Content.soaData { soaEx with serial := 100 % 2 ^ 32 } },
        [recordKey soaRecEx.zone soaRecEx.name soaRecEx.rtype,
         recordsKey soaRecEx.zone soaRecEx.name soaRecEx.rtype]) :=
  ⟨c5_soa_bump_invocation.1 soaCfgEx 100 "example.com" reqEx stEx (by decide)
      (by decide) (by decide) (by decide) (fun _ => by decide),
   c5_soa_bump_invocation.2.2.2.2 soaCfgEx 100 "example.com" stEx soaRecEx []
      soaEx (by decide) (by decide)⟩

/-- C4 counterexample: two successful non-SOA creates in zone example.com at
    the same clock second (time 100) both succeed, and the SOA serial observed
    after the second equals the serial observed after the first (both 100), so
    it is not strictly greater. -/
theorem c4_counterexample :
    (createRecordHandler soaCfgEx 100 "example.com" reqEx stEx).status = 201
  ∧ (createRecordHandler soaCfgEx 100 "example.com" reqEx
      (createRecordHandler soaCfgEx 100 "example.com" reqEx stEx).store).status = 201
  ∧ getSOASerial (createRecordHandler soaCfgEx 100 "example.com" reqEx stEx).store
      "example.com" = some 100
  ∧ getSOASerial (createRecordHandler soaCfgEx 100 "example.com" reqEx
      (createRecordHandler soaCfgEx 100 "example.com" reqEx stEx).store).store
      "example.com" = some 100 := by
  refine ⟨by decide, by decide, by decide, by decide⟩

theorem create_step_serial (cfg : SOAConfig) (t : Nat) (zone : String)
    (req : CreateReq) (st : Store) (r0 : Record) (tl : List Record)
    (d : SOARecordData)
    (hsoa : st.getRecordsByNameAndType zone zone "SOA" = r0 :: tl)
    (hd : r0.content = .soaData d)
    (hzone : st.zones.contains zone = true)
    (hname : req.name ≠ "") (htype : req.rtype ≠ "")
    (hnot : req.rtype ≠ "SOA") (hcontent : req.content.str ≠ "")
    (httl : req.ttl > 0 → req.ttl ∈ validTTLs) :
    (createRecordHandler cfg t zone req st).status = 201 ∧
    (createRecordHandler cfg t zone req st).store.zones = st.zones ∧
    (∃ tl', (createRecordHandler cfg t zone req st).store.getRecordsByNameAndType
        zone zone "SOA" =
      { r0 with content := Content.soaData { d with serial := t % 2 ^ 32 } } :: tl') ∧
    getSOASerial (createRecordHandler cfg t zone req st).store zone =
      some (t % 2 ^ 32) := by
  have hz' : zone ∈ st.zones := by simpa using hzone
  have hsoa1 : ∀ R : Record, R.rtype = req.rtype →
      ((st.createRecord R).1).getRecordsByNameAndType zone zone "SOA" =
        r0 :: tl := by
    intro R hR
    rw [getRecordsByNameAndType_createRecord_nonSOA st R (by rw [hR]; exact hnot)]
    exact hsoa
  have key : ∀ R : Record, R.rtype = req.rtype →
      updateZoneSOASerial cfg t zone (st.createRecord R).1 =
        .ok (((st.createRecord R).1).updateRecord
            { r0 with content := Content.soaData { d with serial := t % 2 ^ 32 } },
          [recordKey r0.zone r0.name r0.rtype, recordsKey r0.zone r0.name r0.rtype]) := by
    intro R hR
    exact updateZoneSOASerial_spec cfg t zone _ r0 tl d (hsoa1 R hR) hd
  by_cases hp : req.ttl > 0
  · have hmem : req.ttl ∈ validTTLs := httl hp
    simp only [createRecordHandler, Store.getZone]
    simp [hz', hname, htype, hcontent, hp, hmem, hnot]
    rw [key _ rfl]
    exact ⟨rfl, rfl, ⟨_, bump_soa_records _ zone r0 tl d t (hsoa1 _ rfl)⟩,
      getSOASerial_of_head _ zone _ _ _
        (bump_soa_records _ zone r0 tl d t (hsoa1 _ rfl)) rfl⟩
  · simp only [createRecordHandler, Store.getZone]
    simp [hz', hname, htype, hcontent, hp, hnot]
    rw [key _ rfl]
    exact ⟨rfl, rfl, ⟨_, bump_soa_records _ zone r0 tl d t (hsoa1 _ rfl)⟩,
      getSOASerial_of_head _ zone _ _ _
        (bump_soa_records _ zone r0 tl d t (hsoa1 _ rfl)) rfl⟩

theorem update_step_serial (cfg : SOAConfig) (t : Nat) (zone : String)
    (recordID : Int) (upd : UpdateReq) (st : Store) (r0 : Record)
    (tl : List Record) (d : SOARecordData) (r : Record)
    (hsoa : st.getRecordsByNameAndType zone zone "SOA" = r0 :: tl)
    (hd : r0.content = .soaData d)
    (hzone : st.zones.contains zone = true)
    (hrec : st.getRecordByID recordID = some r)
    (hrz : r.zone = zone) (hnot : r.rtype ≠ "SOA")
    (hid : r0.id ≠ r.id)
    (httl : upd.ttl > 0 → upd.ttl ∈ validTTLs) :
    (updateRecordHandler cfg t zone recordID upd st).status = 200 ∧
    (updateRecordHandler cfg t zone recordID upd st).store.zones = st.zones ∧
    (∃ tl', (updateRecordHandler cfg t zone recordID upd st).store.getRecordsByNameAndType
        zone zone "SOA" =
      { r0 with content := Content.soaData { d with serial := t % 2 ^ 32 } } :: tl') ∧
    getSOASerial (updateRecordHandler cfg t zone recordID upd st).store zone =
      some (t % 2 ^ 32) := by
  have hz' : zone ∈ st.zones := by simpa using hzone
  have hsoa1 : ∀ (c : Content) (ttlv pr : Int),
      (st.updateRecord ⟨r.id, zone, r.name, r.rtype, c, ttlv, pr⟩
        ).getRecordsByNameAndType zone zone "SOA" =
        r0 :: tl.map (fun x =>
          if x.id == r.id then ⟨x.id, x.zone, x.name, x.rtype, c, ttlv, pr⟩
          else x) := by
    intro c ttlv pr
    rw [getRecordsByNameAndType_updateRecord, hsoa]
    simp only [List.map_cons]
    have hne : (r0.id == r.id) = false := beq_eq_false_iff_ne.mpr hid
    simp [hne]
  have key : ∀ (c : Content) (ttlv pr : Int),
      updateZoneSOASerial cfg t zone
          (st.updateRecord ⟨r.id, zone, r.name, r.rtype, c, ttlv, pr⟩) =
        .ok ((st.updateRecord ⟨r.id, zone, r.name, r.rtype, c, ttlv, pr⟩).updateRecord
            { r0 with content := Content.soaData { d with serial := t % 2 ^ 32 } },
          [recordKey r0.zone r0.name r0.rtype, recordsKey r0.zone r0.name r0.rtype]) := by
    intro c ttlv pr
    exact updateZoneSOASerial_spec cfg t zone _ r0 _ d (hsoa1 c ttlv pr) hd
  by_cases hcont : upd.content.str = "" <;> by_cases hp : upd.ttl > 0
  · have hmem : upd.ttl ∈ validTTLs := httl hp
    simp only [updateRecordHandler, Store.getZone]
    simp [hz', hrec, hrz, hcont, hp, hmem, hnot]
    rw [key r.content upd.ttl upd.priority]
    exact ⟨rfl, rfl,
      ⟨_, bump_soa_records _ zone r0 _ d t (hsoa1 r.content upd.ttl upd.priority)⟩,
      getSOASerial_of_head _ zone _ _ _
        (bump_soa_records _ zone r0 _ d t (hsoa1 r.content upd.ttl upd.priority)) rfl⟩
  · simp only [updateRecordHandler, Store.getZone]
    simp [hz', hrec, hrz, hcont, hp, hnot]
    rw [key r.content r.ttl upd.priority]
    exact ⟨rfl, rfl,
      ⟨_, bump_soa_records _ zone r0 _ d t (hsoa1 r.content r.ttl upd.priority)⟩,
      getSOASerial_of_head _ zone _ _ _
        (bump_soa_records _ zone r0 _ d t (hsoa1 r.content r.ttl upd.priority)) rfl⟩
  · have hmem : upd.ttl ∈ validTTLs := httl hp
    simp only [updateRecordHandler, Store.getZone]
    simp [hz', hrec, hrz, hcont, hp, hmem, hnot]
    rw [key upd.content upd.ttl upd.priority]
    exact ⟨rfl, rfl,
      ⟨_, bump_soa_records _ zone r0 _ d t (hsoa1 upd.content upd.ttl upd.priority)⟩,
      getSOASerial_of_head _ zone _ _ _
        (bump_soa_records _ zone r0 _ d t (hsoa1 upd.content upd.ttl upd.priority)) rfl⟩
  · simp only [updateRecordHandler, Store.getZone]
    simp [hz', hrec, hrz, hcont, hp, hnot]
    rw [key upd.content r.ttl upd.priority]
    exact ⟨rfl, rfl,
      ⟨_, bump_soa_records _ zone r0 _ d t (hsoa1 upd.content r.ttl upd.priority)⟩,
      getSOASerial_of_head _ zone _ _ _
        (bump_soa_records _ zone r0 _ d t (hsoa1 upd.content r.ttl upd.priority)) rfl⟩

theorem delete_step_serial (cfg : SOAConfig) (t : Nat) (zone : String)
    (recordID : Int) (st : Store) (r0 : Record) (tl : List Record)
    (d : SOARecordData) (r : Record)
    (hsoa : st.getRecordsByNameAndType zone zone "SOA" = r0 :: tl)
    (hd : r0.content = .soaData d)
    (hzone : st.zones.contains zone = true)
    (hrec : st.getRecordByID recordID = some r)
    (hnot : r.rtype ≠ "SOA")
    (hid : r0.id ≠ recordID) :
    (deleteRecordHandler cfg t zone recordID st).status = 200 ∧
    (deleteRecordHandler cfg t zone recordID st).store.zones = st.zones ∧
    (∃ tl', (deleteRecordHandler cfg t zone recordID st).store.getRecordsByNameAndType
        zone zone "SOA" =
      { r0 with content := Content.soaData { d with serial := t % 2 ^ 32 } } :: tl') ∧
    getSOASerial (deleteRecordHandler cfg t zone recordID st).store zone =
      some (t % 2 ^ 32) := by
  have hz' : zone ∈ st.zones := by simpa using hzone
  have hsoa1 : (st.deleteRecord recordID).getRecordsByNameAndType zone zone "SOA" =
      r0 :: tl.filter (fun x => !(x.id == recordID)) := by
    rw [getRecordsByNameAndType_deleteRecord, hsoa, List.filter_cons]
    have hne : (!(r0.id == recordID)) = true := by
      simp [hid]
    rw [hne]
    simp
  have key : updateZoneSOASerial cfg t zone (st.deleteRecord recordID) =
      .ok ((st.deleteRecord recordID).updateRecord
          { r0 with content := Content.soaData { d with serial := t % 2 ^ 32 } },
        [recordKey r0.zone r0.name r0.rtype, recordsKey r0.zone r0.name r0.rtype]) :=
    updateZoneSOASerial_spec cfg t zone _ r0 _ d hsoa1 hd
  simp only [deleteRecordHandler, Store.getZone]
  simp [hz', hrec, hnot]
  rw [key]
  exact ⟨rfl, rfl, ⟨_, bump_soa_records _ zone r0 _ d t hsoa1⟩,
    getSOASerial_of_head _ zone _ _ _
      (bump_soa_records _ zone r0 _ d t hsoa1) rfl⟩

/-- C4 (amended): the SOA serial observed after a successful non-SOA mutation
    (create, update or delete) equals the mutation-time clock reading reduced
    mod 2^32 — the serial is overwritten with the current time, with no
    monotonicity guard. Hence across consecutive mutations the serial is
    strictly greater than the previous one exactly when the clock readings
    strictly increase (within the uint32 range): the final conjunct chains two
    creates at strictly increasing times; mutations sharing a clock second
    observe equal serials (see the counterexample). -/
theorem c4_serial_equals_clock :
    (∀ (cfg : SOAConfig) (t : Nat) (zone : String) (req : CreateReq) (st : Store)
        (r0 : Record) (tl : List Record) (d : SOARecordData),
      st.getRecordsByNameAndType zone zone "SOA" = r0 :: tl →
      r0.content = .soaData d →
      st.zones.contains zone = true →
      req.name ≠ "" → req.rtype ≠ "" → req.rtype ≠ "SOA" → req.content.str ≠ "" →
      (req.ttl > 0 → req.ttl ∈ validTTLs) →
      (createRecordHandler cfg t zone req st).status = 201 ∧
      getSOASerial (createRecordHandler cfg t zone req st).store zone =
        some (t % 2 ^ 32))
  ∧ (∀ (cfg : SOAConfig) (t : Nat) (zone : String) (recordID : Int)
        (upd : UpdateReq) (st : Store) (r0 : Record) (tl : List Record)
        (d : SOARecordData) (r : Record),
      st.getRecordsByNameAndType zone zone "SOA" = r0 :: tl →
      r0.content = .soaData d →
      st.zones.contains zone = true →
      st.getRecordByID recordID = some r →
      r.zone = zone → r.rtype ≠ "SOA" → r0.id ≠ r.id →
      (upd.ttl > 0 → upd.ttl ∈ validTTLs) →
      (updateRecordHandler cfg t zone recordID upd st).status = 200 ∧
      getSOASerial (updateRecordHandler cfg t zone recordID upd st).store zone =
        some (t % 2 ^ 32))
  ∧ (∀ (cfg : SOAConfig) (t : Nat) (zone : String) (recordID : Int) (st : Store)
        (r0 : Record) (tl : List Record) (d : SOARecordData) (r : Record),
      st.getRecordsByNameAndType zone zone "SOA" = r0 :: tl →
      r0.content = .soaData d →
      st.zones.contains zone = true →
      st.getRecordByID recordID = some r →
      r.rtype ≠ "SOA" → r0.id ≠ recordID →
      (deleteRecordHandler cfg t zone recordID st).status = 200 ∧
      getSOASerial (deleteRecordHandler cfg t zone recordID st).store zone =
        some (t % 2 ^ 32))
  ∧ (∀ (cfg : SOAConfig) (zone : String) (st : Store) (r0 : Record)
        (tl : List Record) (d : SOARecordData) (req1 req2 : CreateReq)
        (t1 t2 : Nat),
      st.getRecordsByNameAndType zone zone "SOA" = r0 :: tl →
      r0.content = .soaData d →
      st.zones.contains zone = true →
      req1.name ≠ "" → req1.rtype ≠ "" → req1.rtype ≠ "SOA" →
      req1.content.str ≠ "" → (req1.ttl > 0 → req1.ttl ∈ validTTLs) →
      req2.name ≠ "" → req2.rtype ≠ "" → req2.rtype ≠ "SOA" →
      req2.content.str ≠ "" → (req2.ttl > 0 → req2.ttl ∈ validTTLs) →
      t1 < t2 → t2 < 2 ^ 32 →
      ∃ s1 s2,
        getSOASerial (createRecordHandler cfg t1 zone req1 st).store zone =
          some s1 ∧
        getSOASerial (createRecordHandler cfg t2 zone req2
            (createRecordHandler cfg t1 zone req1 st).store).store zone =
          some s2 ∧
        s1 < s2) := by
  refine ⟨?_, ?_, ?_, ?_⟩
  · intro cfg t zone req st r0 tl d hsoa hd hzone hname htype hnot hcontent httl
    obtain ⟨h1, _, _, h4⟩ :=
      create_step_serial cfg t zone req st r0 tl d hsoa hd hzone hname htype
        hnot hcontent httl
    exact ⟨h1, h4⟩
  · intro cfg t zone recordID upd st r0 tl d r hsoa hd hzone hrec hrz hnot hid httl
    obtain ⟨h1, _, _, h4⟩ :=
      update_step_serial cfg t zone recordID upd st r0 tl d r hsoa hd hzone
        hrec hrz hnot hid httl
    exact ⟨h1, h4⟩
  · intro cfg t zone recordID st r0 tl d r hsoa hd hzone hrec hnot hid
    obtain ⟨h1, _, _, h4⟩ :=
      delete_step_serial cfg t zone recordID st r0 tl d r hsoa hd hzone hrec
        hnot hid
    exact ⟨h1, h4⟩
  · intro cfg zone st r0 tl d req1 req2 t1 t2 hsoa hd hzone hname1 htype1 hnot1
      hcontent1 httl1 hname2 htype2 hnot2 hcontent2 httl2 ht12 ht2
    obtain ⟨_, hz1, ⟨tl1, hlist1⟩, hser1⟩ :=
      create_step_serial cfg t1 zone req1 st r0 tl d hsoa hd hzone hname1
        htype1 hnot1 hcontent1 httl1
    have hzone1 : (createRecordHandler cfg t1 zone req1 st).store.zones.contains
        zone = true := by
      rw [hz1]
      exact hzone
    obtain ⟨_, _, _, hser2⟩ :=
      create_step_serial cfg t2 zone req2
        (createRecordHandler cfg t1 zone req1 st).store
        { r0 with content := Content.soaData { d with serial := t1 % 2 ^ 32 } }
        tl1 { d with serial := t1 % 2 ^ 32 } hlist1 rfl hzone1 hname2 htype2
        hnot2 hcontent2 httl2
    refine ⟨t1 % 2 ^ 32, t2 % 2 ^ 32, hser1, hser2, ?_⟩
    rw [Nat.mod_eq_of_lt (ht12.trans ht2), Nat.mod_eq_of_lt ht2]
    exact ht12

/-- C4 witness: the chained conjunct at the concrete store, with the two
    creates at times 100 and 200; the serials strictly increase. -/
theorem c4_serial_equals_clock_witness :
    ∃ s1 s2,
      getSOASerial (createRecordHandler soaCfgEx 100 "example.com" reqEx
          stEx).store "example.com" = some s1 ∧
      getSOASerial (createRecordHandler soaCfgEx 200 "example.com" reqEx
          (createRecordHandler soaCfgEx 100 "example.com" reqEx stEx).store
        ).store "example.com" = some s2 ∧
      s1 < s2 :=
  c4_serial_equals_clock.2.2.2 soaCfgEx "example.com" stEx soaRecEx [] soaEx
    reqEx reqEx 100 200 (by decide) (by decide) (by decide) (by decide)
    (by decide) (by decide) (by decide) (fun _ => by decide) (by decide)
    (by decide) (by decide) (by decide) (fun _ => by decide) (by decide)
    (by decide)
